import Mathlib

/-!
# Backrest: tunnel stream wrappers, startup wiring and log forwarding

A shallow embedding of

* `internal/api/syncapi/tunnel/streamutil.go` (`clientStream`, `serverStream`),
* `cmd/backrest/backrest.go` (`main`, `newForceKillHandler`, `migratePopulateGuids`),
* `internal/orchestrator/repo/logging.go` (`forwardResticLogs`),

followed by the properties established about them.
-/

namespace Backrest

/-! ## Tunnel streams: data -/

namespace Tunnel

/-- A `v1.TunnelMessage`; the wrapper never inspects the frame. -/
structure TunnelMessage where
  payload : List Nat
  deriving DecidableEq, Repr

/-- The package-level sentinel errors of `streamutil.go`. -/
inductive Sentinel where
  | ErrStreamClosed
  deriving DecidableEq, Repr

/-- The `connect.Code` values the model distinguishes. -/
inductive ConnectCode where
  | Canceled
  | Unknown
  | FailedPrecondition
  | Unavailable
  deriving DecidableEq, Repr

/-- A single (non-aggregated) Go error value: either something the wrapped connect stream
returned, or `connect.NewError(code, sentinel)` built by the wrapper. -/
inductive LeafErr where
  | transport (text : String)
  | connectError (code : ConnectCode) (cause : Sentinel)
  deriving DecidableEq, Repr

/-- A non-nil Go `error` as the callers of the wrapper see it: a single error or a
`*multierror.Error` with its `Errors` slice. The nil error is `none : Option GoError`. -/
inductive GoError where
  | leaf (e : LeafErr)
  | multi (errors : List LeafErr)
  deriving DecidableEq, Repr

/-- The function `multierror.Append(err, e)` for a single appended error `e`: a nil `err` starts a
fresh aggregate, an aggregate is extended, any other error becomes the aggregate's first entry. -/
def multierror.Append (err : Option GoError) (e : LeafErr) : GoError :=
  match err with
  | none => .multi [e]
  | some (.multi es) => .multi (es ++ [e])
  | some (.leaf x) => .multi [x, e]

/-- A call made on the wrapped connect stream. -/
inductive Call where
  | Send (item : TunnelMessage)
  | Receive
  | CloseResponse
  | CloseRequest
  deriving DecidableEq, Repr

/-- The wrapped connect stream: what each of its methods returns, given the calls made on it so
far. -/
structure Underlying where
  Send : List Call → TunnelMessage → Option LeafErr
  Receive : List Call → Option TunnelMessage × Option LeafErr
  CloseResponse : List Call → Option LeafErr
  CloseRequest : List Call → Option LeafErr

/-- The fields of `clientStream` / `serverStream` (both structs have the same fields): the two
mutexes (`true` = locked), the atomic `closed` flag, and the calls made on `stream` so far. -/
structure StreamState where
  sendMu : Bool
  receiveMu : Bool
  closed : Bool
  calls : List Call
  deriving DecidableEq, Repr

/-- How a method call ends: it returns, it parks forever in `Mutex.Lock` on a locked mutex, or it
dies with the fatal `sync: unlock of unlocked mutex`. -/
inductive Outcome (α : Type) where
  | returned (val : α) (s : StreamState)
  | blocked (s : StreamState)
  | panicked (s : StreamState)
  deriving DecidableEq, Repr

/-- Method bodies: state passing with the three ways of ending. -/
def Go (α : Type) : Type := StreamState → Outcome α

/-- Sequencing of two steps of a method body. -/
def Go.bind {α β : Type} (m : Go α) (f : α → Go β) : Go β := fun s =>
  match m s with
  | .returned a s1 => f a s1
  | .blocked s1 => .blocked s1
  | .panicked s1 => .panicked s1

/-- A step that only produces a value. -/
def Go.pure {α : Type} (a : α) : Go α := fun s => .returned a s

instance : Monad Go where
  pure := Go.pure
  bind := Go.bind

/-- The call `s.sendMu.Lock()`. -/
def lockSend : Go Unit := fun s =>
  if s.sendMu then .blocked s else .returned () { s with sendMu := true }

/-- The call `s.sendMu.Unlock()`. -/
def unlockSend : Go Unit := fun s =>
  if s.sendMu then .returned () { s with sendMu := false } else .panicked s

/-- The call `s.receiveMu.Lock()`. -/
def lockReceive : Go Unit := fun s =>
  if s.receiveMu then .blocked s else .returned () { s with receiveMu := true }

/-- The call `s.receiveMu.Unlock()`. -/
def unlockReceive : Go Unit := fun s =>
  if s.receiveMu then .returned () { s with receiveMu := false } else .panicked s

/-- The call `s.closed.Load()`. -/
def loadClosed : Go Bool := fun s => .returned s.closed s

/-- The call `s.closed.Store(true)`. -/
def storeClosedTrue : Go Unit := fun s => .returned () { s with closed := true }

/-- The call `s.stream.Send(item)`. -/
def streamSend (u : Underlying) (item : TunnelMessage) : Go (Option LeafErr) := fun s =>
  .returned (u.Send s.calls item) { s with calls := s.calls ++ [.Send item] }

/-- The call `s.stream.Receive()`. -/
def streamReceive (u : Underlying) : Go (Option TunnelMessage × Option LeafErr) := fun s =>
  .returned (u.Receive s.calls) { s with calls := s.calls ++ [.Receive] }

/-- The call `s.stream.CloseResponse()`. -/
def streamCloseResponse (u : Underlying) : Go (Option LeafErr) := fun s =>
  .returned (u.CloseResponse s.calls) { s with calls := s.calls ++ [.CloseResponse] }

/-- The call `s.stream.CloseRequest()`. -/
def streamCloseRequest (u : Underlying) : Go (Option LeafErr) := fun s =>
  .returned (u.CloseRequest s.calls) { s with calls := s.calls ++ [.CloseRequest] }

/-- The error `connect.NewError(connect.CodeFailedPrecondition, ErrStreamClosed)`. -/
def errClosed : GoError := .leaf (.connectError .FailedPrecondition .ErrStreamClosed)

/-! ## Tunnel streams: methods -/

/-- The method `(*clientStream).Send`. The unlock is deferred, so it runs after the result is
known. -/
def clientStream.Send (u : Underlying) (item : TunnelMessage) : Go (Option GoError) := do
  lockSend
  let ret ← (do
    if (← loadClosed) then
      return some errClosed
    let e ← streamSend u item
    return e.map GoError.leaf)
  unlockSend
  return ret

/-- The method `(*clientStream).Receive`. -/
def clientStream.Receive (u : Underlying) : Go (Option TunnelMessage × Option GoError) := do
  lockReceive
  let ret ← (do
    if (← loadClosed) then
      return (none, some errClosed)
    let r ← streamReceive u
    return (r.1, r.2.map GoError.leaf))
  unlockReceive
  return ret

/-- The method `(*clientStream).Close`. -/
def clientStream.Close (u : Underlying) : Go (Option GoError) := do
  storeClosedTrue
  lockReceive
  let err : Option GoError := none
  let err ← (do
    match (← streamCloseResponse u) with
    | some e => return some (multierror.Append err e)
    | none => return err)
  unlockReceive
  lockSend
  let err ← (do
    match (← streamCloseRequest u) with
    | some e => return some (multierror.Append err e)
    | none => return err)
  unlockSend
  return err

/-- The method `(*serverStream).Send`. -/
def serverStream.Send (u : Underlying) (item : TunnelMessage) : Go (Option GoError) := do
  lockSend
  let ret ← (do
    if (← loadClosed) then
      return some errClosed
    let e ← streamSend u item
    return e.map GoError.leaf)
  unlockSend
  return ret

/-- The method `(*serverStream).Receive`. -/
def serverStream.Receive (u : Underlying) : Go (Option TunnelMessage × Option GoError) := do
  lockReceive
  let ret ← (do
    if (← loadClosed) then
      return (none, some errClosed)
    let r ← streamReceive u
    return (r.1, r.2.map GoError.leaf))
  unlockReceive
  return ret

/-- The method `(*serverStream).Close`: it locks both mutexes, stores the flag and returns nil;
the source has no unlock on this path. -/
def serverStream.Close : Go (Option GoError) := do
  lockReceive
  lockSend
  storeClosedTrue
  return none

/-- A freshly wrapped stream: both mutexes unlocked, not closed, nothing called yet. -/
def fresh : StreamState := { sendMu := false, receiveMu := false, closed := false, calls := [] }

/-- An underlying stream on which every call succeeds and `Receive` yields an empty frame. -/
def quietStream : Underlying where
  Send := fun _ _ => none
  Receive := fun _ => (some ⟨[]⟩, none)
  CloseResponse := fun _ => none
  CloseRequest := fun _ => none

/-- An underlying stream on which both half-closes fail. -/
def failingStream : Underlying where
  Send := fun _ _ => none
  Receive := fun _ => (none, some (.transport "EOF"))
  CloseResponse := fun _ => some (.transport "read half: connection reset")
  CloseRequest := fun _ => some (.transport "write half: broken pipe")

/-- One call on a wrapped stream, as made by some caller. -/
inductive Op where
  | Send (item : TunnelMessage)
  | Receive
  | Close
  deriving DecidableEq, Repr

/-- Performing one call on a `clientStream` and discarding what it returns. -/
def clientStream.perform (u : Underlying) : Op → Go Unit
  | .Send item => do let _ ← clientStream.Send u item
  | .Receive => do let _ ← clientStream.Receive u
  | .Close => do let _ ← clientStream.Close u

/-- Performing a sequence of calls on a `clientStream`, one after the other. -/
def clientStream.performAll (u : Underlying) : List Op → Go Unit
  | [] => pure ()
  | op :: rest => do
    clientStream.perform u op
    clientStream.performAll u rest

/-- The aggregate `Close` hands back for the two half-close results: nil when both are nil,
otherwise a `*multierror.Error` listing the non-nil ones, read-half first. -/
def aggregate (e1 e2 : Option LeafErr) : Option GoError :=
  if e1 = none ∧ e2 = none then none else some (.multi (e1.toList ++ e2.toList))

end Tunnel

/-! ## `cmd/backrest/backrest.go` -/

namespace Main

/-- Modelled from the spec: the `v1.Operation` message is generated code that is not among the
sources; the fields are the ones the spec's data model lists (identity, scope, status,
timestamps, payload), under the names the sources use for them (`Id`, `RepoId`, `RepoGuid`). -/
structure Operation where
  Id : Int
  FlowId : Int
  RepoId : String
  RepoGuid : String
  PlanId : String
  SnapshotId : String
  Status : Nat
  UnixTimeStartMs : Int
  UnixTimeEndMs : Int
  DisplayMessage : String
  deriving DecidableEq, Repr

/-- Modelled from the spec: a repository entry of `v1.Config` (generated code, not among the
sources), reduced to the identity fields the spec names: the user-facing ID and the GUID. -/
structure Repo where
  Id : String
  Guid : String
  deriving DecidableEq, Repr

/-- Modelled from the spec: the `v1.Config` message, reduced to the repositories the config
provider supplies. -/
structure Config where
  Repos : List Repo
  deriving DecidableEq, Repr

/-- A Go `map[string]string`: a lookup reports the value and whether the key is present. -/
def StringMap : Type := String → Option String

/-- The map `make(map[string]string)`. -/
def StringMap.empty : StringMap := fun _ => none

/-- The assignment `m[k] = v`. -/
def StringMap.set (m : StringMap) (k v : String) : StringMap :=
  fun k' => if k' = k then some v else m k'

/-- The first loop of `migratePopulateGuids`: every repo with a non-empty `Guid` is entered under
its `Id`, in config order, a later entry replacing an earlier one with the same `Id`. -/
def repoToGUID (cfg : Config) : StringMap :=
  cfg.Repos.foldl (fun m repo => if repo.Guid ≠ "" then m.set repo.Id repo.Guid else m)
    StringMap.empty

/-- What the transform callback hands back: the replacement (`none` is the nil operation, "no
change"), the error, and the value of the captured counter `migratedOpCount` afterwards. -/
structure CallbackResult where
  op : Option Operation
  err : Option String
  migratedOpCount : Int
  deriving DecidableEq, Repr

/-- The function literal passed to `logstore.Transform` in `migratePopulateGuids`. -/
def populateGuid (repoToGUID : StringMap) (op : Operation) (migratedOpCount : Int) :
    CallbackResult :=
  if op.RepoGuid ≠ "" then
    { op := none, err := none, migratedOpCount := migratedOpCount }
  else
    match repoToGUID op.RepoId with
    | some guid =>
      { op := some { op with RepoGuid := guid }, err := none,
        migratedOpCount := migratedOpCount + 1 }
    | none => { op := none, err := none, migratedOpCount := migratedOpCount }

/-- Modelled from the spec: the event kinds of `oplog.OperationEvent` (declared outside the
sources): added, updated, deleted. -/
inductive OperationEvent where
  | OPERATION_ADDED
  | OPERATION_UPDATED
  | OPERATION_DELETED
  deriving DecidableEq, Repr

/-- The task log store as `deleteLogsForOp` uses it: what `DeleteWithParent(id)` returns, given
the IDs it was called with before. -/
structure LogStore where
  DeleteWithParent : List Int → Int → Option String

/-- What `deleteLogsForOp` has done so far: the IDs passed to `DeleteWithParent`, in call order,
and the warnings logged (operation ID and error text). -/
structure CleanupTrace where
  deleted : List Int
  warnings : List (Int × String)
  deriving DecidableEq, Repr

/-- One iteration of the loop of `deleteLogsForOp`: delete the logs of `op`, warn if that
failed, and go on either way. -/
def deleteLogsStep (logStore : LogStore) (t : CleanupTrace) (op : Operation) : CleanupTrace :=
  match logStore.DeleteWithParent t.deleted op.Id with
  | some err => { deleted := t.deleted ++ [op.Id], warnings := t.warnings ++ [(op.Id, err)] }
  | none => { deleted := t.deleted ++ [op.Id], warnings := t.warnings }

/-- The subscriber `deleteLogsForOp` of `main`. -/
def deleteLogsForOp (logStore : LogStore) (ops : List Operation) (event : OperationEvent)
    (t : CleanupTrace) : CleanupTrace :=
  if event ≠ .OPERATION_DELETED then t
  else ops.foldl (deleteLogsStep logStore) t

/-- An error handed back by the operation store; `isErrLocked` is what
`errors.Is(err, sqlitestore.ErrLocked)` reports for it, `text` is how `%v` prints it. -/
structure StoreError where
  text : String
  isErrLocked : Bool
  deriving DecidableEq, Repr

/-- What opening the store (`sqlitestore.NewSqliteStore`) or creating the log
(`oplog.NewOpLog`) hands back: a handle or an error. -/
inductive Opened where
  | ok (handle : Nat)
  | failed (err : StoreError)
  deriving DecidableEq, Repr

/-- What the startup code of lines 74-88 does that is visible from outside. -/
inductive StartupEvent where
  | NewSqliteStore (file : String)
  | Warnf (message : String)
  | Fatalf (message : String)
  | NewOpLog (store : Nat)
  deriving DecidableEq, Repr

/-- The formatting verb `%q` on a string without characters that need escaping. -/
def quoted (s : String) : String := "\"" ++ s ++ "\""

/-- The message of the fatal report for a locked store. -/
def lockedMessage (dataDir : String) : String :=
  "oplog is locked by another instance of backrest that is using the same data directory " ++
    quoted dataDir ++ ", kill that instance before starting another one."

/-- The message of the warning that precedes the fatal report for any other store error. -/
def corruptionGuidance (oplogFile : String) : String :=
  "operation log may be corrupted, if errors recur delete the file " ++ quoted oplogFile ++
    " and restart. Your backups stored in your repos are safe."

/-- The message of the fatal report `error creating oplog: %v`. -/
def creatingMessage (err : StoreError) : String := "error creating oplog: " ++ err.text

/-- How the startup code ends: the process has exited in `Fatalf`, or `main` goes on with the
log it created. -/
inductive StartupResult where
  | exited (events : List StartupEvent)
  | running (events : List StartupEvent) (store log : Nat)
  deriving DecidableEq, Repr

/-- What lines 74-88 of `main` take from outside: the data directory `env.DataDir()`, the
library function `path.Join`, and what the constructors `sqlitestore.NewSqliteStore` and
`oplog.NewOpLog` hand back. -/
structure StartupEnv where
  DataDir : String
  Join : String → String → String
  NewSqliteStore : String → Opened
  NewOpLog : Nat → Opened

/-- Lines 74-88 of `main`: open the store, report a failure and exit, otherwise create the
log. -/
def openOplog (env : StartupEnv) : StartupResult :=
  let oplogFile := env.Join env.DataDir "oplog.sqlite"
  let events := [StartupEvent.NewSqliteStore oplogFile]
  match env.NewSqliteStore oplogFile with
  | .failed err =>
    if err.isErrLocked then
      .exited (events ++ [.Fatalf (lockedMessage env.DataDir)])
    else
      .exited (events ++ [.Warnf (corruptionGuidance oplogFile), .Fatalf (creatingMessage err)])
  | .ok opstore =>
    let events := events ++ [.NewOpLog opstore]
    match env.NewOpLog opstore with
    | .failed err => .exited (events ++ [.Fatalf (creatingMessage err)])
    | .ok log => .running events opstore log

/-- A startup environment with data directory `/data` in which opening the store fails with the
given error. -/
def failingEnv (err : StoreError) : StartupEnv where
  DataDir := "/data"
  Join := fun a b => a ++ "/" ++ b
  NewSqliteStore := fun _ => .failed err
  NewOpLog := fun h => .ok h

/-- An error that has nothing to do with corruption or locking. -/
def permissionDenied : StoreError :=
  { text := "unable to open database file: permission denied", isErrLocked := false }

/-- An error of a corrupted database file. -/
def malformedImage : StoreError :=
  { text := "database disk image is malformed", isErrLocked := false }

/-- The events of a startup result. -/
def StartupResult.events : StartupResult → List StartupEvent
  | .exited events => events
  | .running events _ _ => events

/-- What an invocation of the force-kill handler does that is visible from outside. -/
inductive KillAction where
  | DumpStacks
  | Fatal (message : String)
  | Warn (message : String)
  deriving DecidableEq, Repr

/-- The result of one invocation of the handler: what it did, the value of `times` afterwards,
and whether the process was terminated (`Fatal` does not return). -/
structure KillResult where
  actions : List KillAction
  times : Int
  terminated : Bool
  deriving DecidableEq, Repr

/-- The method `atomic.Int32.Add(1)`: the sum wraps around in 32 bits. -/
def int32Add1 (t : Int) : Int := (t + 1 + 2 ^ 31) % 2 ^ 32 - 2 ^ 31

/-- The closure returned by `newForceKillHandler`, as a function of the captured counter
`times`. After `Fatal` nothing of the closure runs, so the counter keeps its value. -/
def forceKillHandler (times : Int) : KillResult :=
  if times > 0 then
    { actions := [.DumpStacks,
        .Fatal "dumped all running coroutine stack traces, forcing termination"],
      times := times, terminated := true }
  else
    { actions := [.Warn "attempting graceful shutdown, to force termination press Ctrl+C again"],
      times := int32Add1 times, terminated := false }

/-- The value of `times` before the `(k+1)`-th invocation of one handler (`var times
atomic.Int32` starts at zero). -/
def timesBefore : Nat → Int
  | 0 => 0
  | k + 1 => (forceKillHandler (timesBefore k)).times

/-- The `k`-th invocation of one handler, `k = 1, 2, ...`. -/
def invocation (k : Nat) : KillResult := forceKillHandler (timesBefore (k - 1))

end Main

/-! ## `internal/orchestrator/repo/logging.go` -/

namespace Repo

/-- Modelled from the spec: the struct `ioutil.LimitWriter` (an internal package that is not
among the sources), the bounded buffer whose excess bytes are dropped and counted: `N` bytes may
still pass, `D` bytes were dropped so far. -/
structure LimitWriter where
  N : Int
  D : Int
  deriving DecidableEq, Repr

/-- The part of a `context.Context` that `forwardResticLogs` reads and sets: the task's log
writer (`logging.WriterFromContext`) and the restic logger (`restic.ContextWithLogger`). -/
structure Context where
  logWriter : Option Nat
  resticLogger : Option LimitWriter
  deriving DecidableEq, Repr

/-- What the flush function sees and changes: the limit writer at that time, whether the pipe
writer is closed, and the warnings the `[restic] ` logger has written. -/
structure FlushWorld where
  limitWriter : LimitWriter
  pipeWriterClosed : Bool
  warnings : List String
  deriving DecidableEq, Repr

/-- The formatted warning of the flush function. -/
def truncatedMessage (d : Int) : String :=
  "... Output truncated, " ++ toString d ++ " bytes dropped\n"

/-- The flush function returned when the context has a log writer. -/
def flushLogs (w : FlushWorld) : FlushWorld :=
  let w :=
    if w.limitWriter.D > 0 then
      { w with warnings := w.warnings ++ [truncatedMessage w.limitWriter.D] }
    else w
  { w with pipeWriterClosed := true }

/-- The function `forwardResticLogs`: the returned context and the returned flush function. -/
def forwardResticLogs (ctx : Context) : Context × (FlushWorld → FlushWorld) :=
  if ctx.logWriter = none then
    (ctx, fun w => w)
  else
    let limitWriter : LimitWriter := { N := 1024 * 1024, D := 0 }
    ({ ctx with resticLogger := some limitWriter }, flushLogs)

end Repo

/-! ## Tunnel streams: interleaved callers -/

namespace Tunnel

/-- Which wrapper the callers share: a `clientStream` or a `serverStream`. -/
inductive Side where
  | client
  | server
  deriving DecidableEq, Repr

/-- The methods of the `stream` interface. -/
inductive Method where
  | Send
  | Receive
  | Close
  deriving DecidableEq, Repr

/-- Where a goroutine stands inside a method of the wrapper; each point names the statement it
executes next. At `sendCall`, `recvCall`, `closeResponse` and `closeRequest` the goroutine is
inside the call on the wrapped stream, which ends with its next step. -/
inductive Pc where
  | idle
  | sendLock
  | sendCheck
  | sendCall
  | sendUnlock
  | recvLock
  | recvCheck
  | recvCall
  | recvUnlock
  | closeStore
  | closeLockRecv
  | closeResponse
  | closeUnlockRecv
  | closeLockSend
  | closeRequest
  | closeUnlockSend
  | srvLockRecv
  | srvLockSend
  | srvStore
  | crashed
  deriving DecidableEq, Repr

/-- One wrapper shared by goroutines `0, 1, 2, ...`: its two mutexes, its flag, and where each
goroutine stands. -/
structure Shared where
  sendMu : Bool
  receiveMu : Bool
  closed : Bool
  pc : Nat → Pc

/-- Moving goroutine `g` to the point `p`. -/
def Shared.goto (w : Shared) (g : Nat) (p : Pc) : Shared :=
  { w with pc := fun h => if h = g then p else w.pc h }

/-- The first statement of each method: `Send` and `Receive` start by locking their mutex,
`clientStream.Close` by storing the flag, `serverStream.Close` by locking the receive mutex. -/
def entry : Side → Method → Pc
  | _, .Send => .sendLock
  | _, .Receive => .recvLock
  | .client, .Close => .closeStore
  | .server, .Close => .srvLockRecv

/-- The next statement of goroutine `g`, if it can run: `none` when `g` is parked in `Lock` on a
locked mutex, or is not inside a method. Unlocking an unlocked mutex is fatal. -/
def advance (w : Shared) (g : Nat) : Option Shared :=
  match w.pc g with
  | .idle => none
  | .crashed => none
  | .sendLock => if w.sendMu then none else some ({ w with sendMu := true }.goto g .sendCheck)
  | .sendCheck => some (w.goto g (if w.closed then .sendUnlock else .sendCall))
  | .sendCall => some (w.goto g .sendUnlock)
  | .sendUnlock =>
    if w.sendMu then some ({ w with sendMu := false }.goto g .idle) else some (w.goto g .crashed)
  | .recvLock =>
    if w.receiveMu then none else some ({ w with receiveMu := true }.goto g .recvCheck)
  | .recvCheck => some (w.goto g (if w.closed then .recvUnlock else .recvCall))
  | .recvCall => some (w.goto g .recvUnlock)
  | .recvUnlock =>
    if w.receiveMu then some ({ w with receiveMu := false }.goto g .idle)
    else some (w.goto g .crashed)
  | .closeStore => some ({ w with closed := true }.goto g .closeLockRecv)
  | .closeLockRecv =>
    if w.receiveMu then none else some ({ w with receiveMu := true }.goto g .closeResponse)
  | .closeResponse => some (w.goto g .closeUnlockRecv)
  | .closeUnlockRecv =>
    if w.receiveMu then some ({ w with receiveMu := false }.goto g .closeLockSend)
    else some (w.goto g .crashed)
  | .closeLockSend =>
    if w.sendMu then none else some ({ w with sendMu := true }.goto g .closeRequest)
  | .closeRequest => some (w.goto g .closeUnlockSend)
  | .closeUnlockSend =>
    if w.sendMu then some ({ w with sendMu := false }.goto g .idle) else some (w.goto g .crashed)
  | .srvLockRecv =>
    if w.receiveMu then none else some ({ w with receiveMu := true }.goto g .srvLockSend)
  | .srvLockSend =>
    if w.sendMu then none else some ({ w with sendMu := true }.goto g .srvStore)
  | .srvStore => some ({ w with closed := true }.goto g .idle)

/-- What the scheduler can do next: let an idle goroutine call a method, or let a goroutine run
its next statement. -/
inductive Action where
  | call (g : Nat) (m : Method)
  | step (g : Nat)
  deriving DecidableEq, Repr

/-- One scheduling decision. A call by a goroutine that is inside a method, and a step of a
goroutine that cannot run, leave everything as it is. -/
def act (side : Side) (w : Shared) : Action → Shared
  | .call g m => if w.pc g = .idle then w.goto g (entry side m) else w
  | .step g => (advance w g).getD w

/-- A whole schedule, decision after decision. -/
def exec (side : Side) (w : Shared) (sched : List Action) : Shared :=
  sched.foldl (act side) w

/-- A freshly wrapped stream and no goroutine inside a method. -/
def Shared.init : Shared :=
  { sendMu := false, receiveMu := false, closed := false, pc := fun _ => .idle }

/-- Goroutine `g` holds the send mutex at point `p`: it has locked it and not yet unlocked it. -/
def holdsSend : Pc → Bool
  | .sendCheck | .sendCall | .sendUnlock => true
  | .closeRequest | .closeUnlockSend => true
  | .srvStore => true
  | _ => false

/-- Goroutine `g` holds the receive mutex at point `p`. -/
def holdsReceive : Pc → Bool
  | .recvCheck | .recvCall | .recvUnlock => true
  | .closeResponse | .closeUnlockRecv => true
  | .srvLockSend | .srvStore => true
  | _ => false

/-- The send mutex is locked whenever a goroutine holds it, and at most one goroutine holds it. -/
def SendExcl (w : Shared) : Prop :=
  (∀ g, holdsSend (w.pc g) = true → w.sendMu = true) ∧
  (∀ g h, holdsSend (w.pc g) = true → holdsSend (w.pc h) = true → g = h)

/-- The receive mutex is locked whenever a goroutine holds it, and at most one holds it. -/
def ReceiveExcl (w : Shared) : Prop :=
  (∀ g, holdsReceive (w.pc g) = true → w.receiveMu = true) ∧
  (∀ g h, holdsReceive (w.pc g) = true → holdsReceive (w.pc h) = true → g = h)

/-- Both mutexes are locked and no goroutine holds either. -/
def Stuck (w : Shared) : Prop :=
  w.sendMu = true ∧ w.receiveMu = true ∧
    ∀ g, holdsSend (w.pc g) = false ∧ holdsReceive (w.pc g) = false

/-- A schedule on which goroutine 0 is inside the wrapped stream's `Send` while goroutine 1 is
inside its `Receive`. -/
def bothInFlight : List Action :=
  [.call 0 .Send, .step 0, .step 0, .call 1 .Receive, .step 1, .step 1]

end Tunnel

end Backrest

/-! # Properties -/

namespace Backrest

namespace Tunnel

/-! ## Sequential behaviour of the stream wrappers -/

/-- On a closed `clientStream` whose send mutex is free, `Send` hands back the closed error and
leaves every field, the call log included, as it was. -/
theorem clientStream_Send_closed (u : Underlying) (item : TunnelMessage) (s : StreamState)
    (hc : s.closed = true) (hs : s.sendMu = false) :
    clientStream.Send u item s = .returned (some errClosed) s := by
  obtain ⟨sm, rm, c, calls⟩ := s
  simp only at hc hs
  subst hc hs
  rfl

/-- On a closed `clientStream` whose receive mutex is free, `Receive` hands back no message and
the closed error, and leaves every field as it was. -/
theorem clientStream_Receive_closed (u : Underlying) (s : StreamState)
    (hc : s.closed = true) (hr : s.receiveMu = false) :
    clientStream.Receive u s = .returned (none, some errClosed) s := by
  obtain ⟨sm, rm, c, calls⟩ := s
  simp only at hc hr
  subst hc hr
  rfl

/-- With both mutexes free, `clientStream.Close` returns: the flag is set, both mutexes are free
again, the two half-closes were called in order and their errors aggregated. -/
theorem clientStream_Close_free (u : Underlying) (s : StreamState)
    (hs : s.sendMu = false) (hr : s.receiveMu = false) :
    clientStream.Close u s =
      .returned
        (aggregate (u.CloseResponse s.calls) (u.CloseRequest (s.calls ++ [.CloseResponse])))
        { sendMu := false, receiveMu := false, closed := true,
          calls := s.calls ++ [.CloseResponse, .CloseRequest] } := by
  obtain ⟨sm, rm, c, calls⟩ := s
  simp only at hs hr
  subst hs hr
  cases h1 : u.CloseResponse calls <;>
    cases h2 : u.CloseRequest (calls ++ [Call.CloseResponse]) <;>
    simp [clientStream.Close, bind, Go.bind, storeClosedTrue, lockReceive, unlockReceive,
      lockSend, unlockSend, streamCloseResponse, streamCloseRequest, pure, Go.pure,
      aggregate, multierror.Append, h1, h2]

/-- With both mutexes free, every call on a `clientStream` returns with both mutexes free again,
and a set flag stays set. -/
theorem clientStream_perform_free (u : Underlying) (op : Op) (s : StreamState)
    (hs : s.sendMu = false) (hr : s.receiveMu = false) :
    ∃ s1, clientStream.perform u op s = .returned () s1 ∧ s1.sendMu = false ∧
      s1.receiveMu = false ∧ (s.closed = true → s1.closed = true) := by
  obtain ⟨sm, rm, c, calls⟩ := s
  simp only at hs hr
  subst hs hr
  cases op with
  | Send item =>
    cases c <;>
      simp [clientStream.perform, clientStream.Send, bind, Go.bind, lockSend, unlockSend,
        loadClosed, streamSend, pure, Go.pure]
  | Receive =>
    cases c <;>
      simp [clientStream.perform, clientStream.Receive, bind, Go.bind, lockReceive,
        unlockReceive, loadClosed, streamReceive, pure, Go.pure]
  | Close =>
    refine ⟨⟨false, false, true, calls ++ [.CloseResponse, .CloseRequest]⟩, ?_, rfl, rfl,
      fun _ => rfl⟩
    simp only [clientStream.perform, bind, Go.bind]
    rw [clientStream_Close_free u _ rfl rfl]
    rfl

/-- With both mutexes free, every sequence of calls on a `clientStream` returns with both mutexes
free again, and a set flag stays set. -/
theorem clientStream_performAll_free (u : Underlying) (ops : List Op) (s : StreamState)
    (hs : s.sendMu = false) (hr : s.receiveMu = false) :
    ∃ s1, clientStream.performAll u ops s = .returned () s1 ∧ s1.sendMu = false ∧
      s1.receiveMu = false ∧ (s.closed = true → s1.closed = true) := by
  induction ops generalizing s with
  | nil => exact ⟨s, rfl, hs, hr, id⟩
  | cons op rest ih =>
    obtain ⟨s1, h1, hs1, hr1, hc1⟩ := clientStream_perform_free u op s hs hr
    obtain ⟨s2, h2, hs2, hr2, hc2⟩ := ih s1 hs1 hr1
    refine ⟨s2, ?_, hs2, hr2, fun h => hc2 (hc1 h)⟩
    simp only [clientStream.performAll, bind, Go.bind, h1, h2]

/-! ## The claims about the stream wrappers -/

/-- C1 (the code as it is): `serverStream.Close` on a stream with both mutexes free returns nil
with the flag set and BOTH MUTEXES STILL LOCKED, so the next `Send`, `Receive` and `Close` on that
stream park in `Lock` instead of returning; the closed error is never handed out. -/
theorem serverStream_Close_keeps_locks (u : Underlying) (item : TunnelMessage) (closed : Bool)
    (calls : List Call) :
    serverStream.Close { sendMu := false, receiveMu := false, closed := closed, calls := calls }
        = .returned none { sendMu := true, receiveMu := true, closed := true, calls := calls } ∧
      serverStream.Send u item
          { sendMu := true, receiveMu := true, closed := true, calls := calls }
        = .blocked { sendMu := true, receiveMu := true, closed := true, calls := calls } ∧
      serverStream.Receive u
          { sendMu := true, receiveMu := true, closed := true, calls := calls }
        = .blocked { sendMu := true, receiveMu := true, closed := true, calls := calls } ∧
      serverStream.Close
          { sendMu := true, receiveMu := true, closed := true, calls := calls }
        = .blocked { sendMu := true, receiveMu := true, closed := true, calls := calls } :=
  ⟨rfl, rfl, rfl, rfl⟩

/-- C2: on a `clientStream` with both mutexes free, after `Close` and any further calls, `Send`
returns the error wrapping `ErrStreamClosed` with code `FailedPrecondition`, and `Receive` returns
no message with that error; neither changes the stream, so the wrapped stream is not called. This
holds for every message and every behaviour of the wrapped stream. -/
theorem clientStream_closed_after_Close (u : Underlying) (s : StreamState) (later : List Op)
    (item : TunnelMessage) (hs : s.sendMu = false) (hr : s.receiveMu = false) :
    ∃ s1, Go.bind (clientStream.Close u) (fun _ => clientStream.performAll u later) s
          = .returned () s1 ∧
      clientStream.Send u item s1
          = .returned (some (.leaf (.connectError .FailedPrecondition .ErrStreamClosed))) s1 ∧
      clientStream.Receive u s1
          = .returned (none, some (.leaf (.connectError .FailedPrecondition .ErrStreamClosed)))
              s1 := by
  obtain ⟨s1, h1, hs1, hr1, hc1⟩ :=
    clientStream_performAll_free u later
      { sendMu := false, receiveMu := false, closed := true,
        calls := s.calls ++ [.CloseResponse, .CloseRequest] } rfl rfl
  refine ⟨s1, ?_, clientStream_Send_closed u item s1 (hc1 rfl) hs1,
    clientStream_Receive_closed u s1 (hc1 rfl) hr1⟩
  simp only [Go.bind, clientStream_Close_free u s hs hr, h1]

/-- C2, at a concrete stream: close, then send, receive and close again, then send. -/
theorem clientStream_closed_after_Close_witness :
    fresh.sendMu = false ∧ fresh.receiveMu = false ∧
    ∃ s1, Go.bind (clientStream.Close quietStream)
            (fun _ => clientStream.performAll quietStream [.Send ⟨[1]⟩, .Receive, .Close]) fresh
          = .returned () s1 ∧
      clientStream.Send quietStream ⟨[7]⟩ s1
          = .returned (some (.leaf (.connectError .FailedPrecondition .ErrStreamClosed))) s1 ∧
      clientStream.Receive quietStream s1
          = .returned (none, some (.leaf (.connectError .FailedPrecondition .ErrStreamClosed)))
              s1 :=
  ⟨rfl, rfl,
    clientStream_closed_after_Close quietStream fresh [.Send ⟨[1]⟩, .Receive, .Close] ⟨[7]⟩
      rfl rfl⟩

/-- C3: on a `clientStream` with both mutexes free, `Close` returns after calling
`CloseResponse` and then `CloseRequest` on the wrapped stream, whatever the first one returned.
The returned error is nil exactly when both succeeded; otherwise it is the aggregate holding
exactly the errors that were returned, the read-half error first. -/
theorem clientStream_Close_aggregates (u : Underlying) (s : StreamState)
    (hs : s.sendMu = false) (hr : s.receiveMu = false) :
    ∃ ret s1, clientStream.Close u s = .returned ret s1 ∧
      s1.calls = s.calls ++ [.CloseResponse, .CloseRequest] ∧
      (ret = none ↔
        u.CloseResponse s.calls = none ∧ u.CloseRequest (s.calls ++ [.CloseResponse]) = none) ∧
      (∀ a b, u.CloseResponse s.calls = some a →
        u.CloseRequest (s.calls ++ [.CloseResponse]) = some b → ret = some (.multi [a, b])) ∧
      (∀ a, u.CloseResponse s.calls = some a →
        u.CloseRequest (s.calls ++ [.CloseResponse]) = none → ret = some (.multi [a])) ∧
      (∀ b, u.CloseResponse s.calls = none →
        u.CloseRequest (s.calls ++ [.CloseResponse]) = some b → ret = some (.multi [b])) := by
  refine ⟨_, _, clientStream_Close_free u s hs hr, rfl, ?_, ?_, ?_, ?_⟩
  · cases u.CloseResponse s.calls <;>
      cases u.CloseRequest (s.calls ++ [.CloseResponse]) <;> simp [aggregate]
  · intro a b ha hb
    simp [aggregate, ha, hb]
  · intro a ha hb
    simp [aggregate, ha, hb]
  · intro b ha hb
    simp [aggregate, ha, hb]

/-- C3, at a stream whose two half-closes both fail: both errors come back, read-half first. -/
theorem clientStream_Close_aggregates_witness :
    fresh.sendMu = false ∧ fresh.receiveMu = false ∧
    ∃ ret s1, clientStream.Close failingStream fresh = .returned ret s1 ∧
      s1.calls = fresh.calls ++ [.CloseResponse, .CloseRequest] ∧
      (ret = none ↔
        failingStream.CloseResponse fresh.calls = none ∧
          failingStream.CloseRequest (fresh.calls ++ [.CloseResponse]) = none) ∧
      (∀ a b, failingStream.CloseResponse fresh.calls = some a →
        failingStream.CloseRequest (fresh.calls ++ [.CloseResponse]) = some b →
          ret = some (.multi [a, b])) ∧
      (∀ a, failingStream.CloseResponse fresh.calls = some a →
        failingStream.CloseRequest (fresh.calls ++ [.CloseResponse]) = none →
          ret = some (.multi [a])) ∧
      (∀ b, failingStream.CloseResponse fresh.calls = none →
        failingStream.CloseRequest (fresh.calls ++ [.CloseResponse]) = some b →
          ret = some (.multi [b])) :=
  ⟨rfl, rfl, clientStream_Close_aggregates failingStream fresh rfl rfl⟩

/-- C4 (as stated, refuted): on a fresh `clientStream` over a stream whose calls all succeed, the
second `Close` calls `CloseResponse` and `CloseRequest` on the wrapped stream once more: after it
the call log holds each of them twice. -/
theorem clientStream_Close_twice_calls_again :
    ∃ s1 s2, clientStream.Close quietStream fresh = .returned none s1 ∧
      clientStream.Close quietStream s1 = .returned none s2 ∧
      s1.calls = [.CloseResponse, .CloseRequest] ∧
      s2.calls = [.CloseResponse, .CloseRequest, .CloseResponse, .CloseRequest] ∧
      s2.calls ≠ s1.calls :=
  ⟨⟨false, false, true, [.CloseResponse, .CloseRequest]⟩,
    ⟨false, false, true, [.CloseResponse, .CloseRequest, .CloseResponse, .CloseRequest]⟩,
    rfl, rfl, rfl, rfl, by decide⟩

/-- C4 (amended): on a `clientStream` with both mutexes free, a second `Close` returns (it neither
parks nor dies), leaves the flag set and both mutexes free exactly as the first call left them,
and calls `CloseResponse` and then `CloseRequest` on the wrapped stream one more time. -/
theorem clientStream_Close_twice (u : Underlying) (s : StreamState)
    (hs : s.sendMu = false) (hr : s.receiveMu = false) :
    ∃ r1 s1 r2 s2, clientStream.Close u s = .returned r1 s1 ∧
      clientStream.Close u s1 = .returned r2 s2 ∧
      s1.closed = true ∧ s1.sendMu = false ∧ s1.receiveMu = false ∧
      s2.closed = s1.closed ∧ s2.sendMu = s1.sendMu ∧ s2.receiveMu = s1.receiveMu ∧
      s2.calls = s1.calls ++ [.CloseResponse, .CloseRequest] :=
  ⟨_, _, _, _, clientStream_Close_free u s hs hr, clientStream_Close_free u _ rfl rfl,
    rfl, rfl, rfl, rfl, rfl, rfl, rfl⟩

/-- C4 (amended), at a fresh stream whose half-closes both fail. -/
theorem clientStream_Close_twice_witness :
    fresh.sendMu = false ∧ fresh.receiveMu = false ∧
    ∃ r1 s1 r2 s2, clientStream.Close failingStream fresh = .returned r1 s1 ∧
      clientStream.Close failingStream s1 = .returned r2 s2 ∧
      s1.closed = true ∧ s1.sendMu = false ∧ s1.receiveMu = false ∧
      s2.closed = s1.closed ∧ s2.sendMu = s1.sendMu ∧ s2.receiveMu = s1.receiveMu ∧
      s2.calls = s1.calls ++ [.CloseResponse, .CloseRequest] :=
  ⟨rfl, rfl, clientStream_Close_twice failingStream fresh rfl rfl⟩

end Tunnel

end Backrest

namespace Backrest

namespace Main

/-! ## The GUID migration -/

/-- The map built by the first loop of `migratePopulateGuids`, looked up at `k`: the `Guid` of
the last repo of the config that has `Id = k` and a non-empty `Guid`. -/
theorem repoToGUID_lookup (cfg : Config) (k : String) :
    repoToGUID cfg k =
      (cfg.Repos.reverse.find? (fun r => decide (r.Id = k ∧ r.Guid ≠ ""))).map (·.Guid) := by
  unfold repoToGUID
  induction cfg.Repos using List.reverseRecOn with
  | nil => rfl
  | append_singleton xs x ih =>
    rw [List.foldl_append, List.reverse_append]
    simp only [List.foldl_cons, List.foldl_nil, List.reverse_cons, List.reverse_nil,
      List.nil_append, List.singleton_append, List.find?_cons]
    by_cases hg : x.Guid = ""
    · simp [hg]
      simpa using ih
    · by_cases hk : x.Id = k
      · simp [hg, hk, StringMap.set]
      · have hk2 : ¬ k = x.Id := fun h => hk h.symm
        simp [hg, hk, hk2, StringMap.set]
        simpa using ih

/-- C5: for every operation and config, the migration callback never returns an error; it
returns a replacement exactly when the operation's `RepoGuid` is empty and the config has a repo
with the operation's `RepoId` and a non-empty `Guid`; the replacement is the operation with
`RepoGuid` set to the `Guid` of such a repo (the last one in the config) and nothing else
changed; an operation whose `RepoGuid` is already set gets "no change". -/
theorem populateGuid_only_fills_empty (cfg : Config) (op : Operation) (n : Int) :
    (populateGuid (repoToGUID cfg) op n).err = none ∧
    ((populateGuid (repoToGUID cfg) op n).op.isSome = true ↔
      op.RepoGuid = "" ∧ ∃ repo ∈ cfg.Repos, repo.Id = op.RepoId ∧ repo.Guid ≠ "") ∧
    (∀ op', (populateGuid (repoToGUID cfg) op n).op = some op' →
      ∃ repo ∈ cfg.Repos, repo.Id = op.RepoId ∧ repo.Guid ≠ "" ∧
        op' = { op with RepoGuid := repo.Guid }) ∧
    (populateGuid (repoToGUID cfg) op n).op =
      (if op.RepoGuid = "" then
        (cfg.Repos.reverse.find? (fun r => decide (r.Id = op.RepoId ∧ r.Guid ≠ ""))).map
          (fun repo => { op with RepoGuid := repo.Guid })
      else none) ∧
    (op.RepoGuid ≠ "" → (populateGuid (repoToGUID cfg) op n).op = none) := by
  unfold populateGuid
  rw [repoToGUID_lookup]
  by_cases hg : op.RepoGuid = ""
  · cases hf : cfg.Repos.reverse.find? (fun r => decide (r.Id = op.RepoId ∧ r.Guid ≠ "")) with
    | none =>
      have hnone := List.find?_eq_none.mp hf
      refine ⟨by simp [hg], ?_, by simp [hg], by simp [hg], fun h => absurd hg h⟩
      simp only [hg, ne_eq, not_true_eq_false, if_false, Option.map_none', Option.isSome_none,
        Bool.false_eq_true, true_and, false_iff, not_exists, not_and]
      intro repo hmem hid hne
      have := hnone repo (List.mem_reverse.mpr hmem)
      simp [hid, hne] at this
    | some r =>
      have hp := List.find?_some hf
      have hmem : r ∈ cfg.Repos := List.mem_reverse.mp (List.mem_of_find?_eq_some hf)
      simp only [decide_eq_true_eq] at hp
      refine ⟨by simp [hg], ?_, ?_, by simp [hg], fun h => absurd hg h⟩
      · simp only [hg, ne_eq, not_true_eq_false, if_false, Option.map_some', Option.isSome_some,
          true_and, true_iff]
        exact ⟨r, hmem, hp.1, hp.2⟩
      · intro op' h
        simp only [hg, ne_eq, not_true_eq_false, if_false, Option.map_some',
          Option.some.injEq] at h
        exact ⟨r, hmem, hp.1, hp.2, h.symm⟩
  · refine ⟨by simp [hg], by simp [hg], by simp [hg], by simp [hg], fun _ => by simp [hg]⟩

/-! ## The log-cleanup subscriber -/

/-- The loop of `deleteLogsForOp` calls `DeleteWithParent` with the ID of every operation of the
batch, in batch order, whatever the calls return. -/
theorem deleteLogs_loop (logStore : LogStore) (ops : List Operation) (t : CleanupTrace) :
    (ops.foldl (deleteLogsStep logStore) t).deleted = t.deleted ++ ops.map (·.Id) := by
  induction ops generalizing t with
  | nil => simp
  | cons op rest ih =>
    rw [List.foldl_cons, ih]
    cases h : logStore.DeleteWithParent t.deleted op.Id <;> simp [deleteLogsStep, h]

/-- C6: for every log store (whatever its deletions return), every batch and every event kind:
on `OPERATION_DELETED` the subscriber calls `DeleteWithParent` exactly once per operation of
the batch, with that operation's ID, in batch order; on any other event it does nothing. -/
theorem deleteLogsForOp_deletes_batch (logStore : LogStore) (ops : List Operation)
    (event : OperationEvent) (t : CleanupTrace) :
    (deleteLogsForOp logStore ops event t).deleted =
      t.deleted ++ (if event = .OPERATION_DELETED then ops.map (·.Id) else []) ∧
    (event ≠ .OPERATION_DELETED → deleteLogsForOp logStore ops event t = t) := by
  unfold deleteLogsForOp
  by_cases he : event = .OPERATION_DELETED
  · simp [he, deleteLogs_loop]
  · simp [he]

/-! ## Opening the operation store at startup -/

/-- C8 (as stated, refuted): an ordinary store error (permission denied: neither corruption nor
locking) is reported exactly like a corrupted store: the same warning with the guidance to delete
the oplog file precedes the fatal report, which differs in the error text only. -/
theorem openOplog_ordinary_error_reported_as_corruption :
    openOplog (failingEnv permissionDenied)
      = .exited [.NewSqliteStore "/data/oplog.sqlite",
          .Warnf (corruptionGuidance "/data/oplog.sqlite"),
          .Fatalf "error creating oplog: unable to open database file: permission denied"] ∧
    openOplog (failingEnv malformedImage)
      = .exited [.NewSqliteStore "/data/oplog.sqlite",
          .Warnf (corruptionGuidance "/data/oplog.sqlite"),
          .Fatalf "error creating oplog: database disk image is malformed"] := by
  constructor <;> rfl

/-- C8 (amended): the store is opened once. If the error is the locked error, startup exits with
the locked report alone (no warning, no log). For EVERY other error, corruption or not, startup
exits with the warning carrying the corruption guidance followed by the fatal report of the
error. The operation log is created exactly when opening succeeded. -/
theorem openOplog_outcomes (env : StartupEnv) :
    (∀ err, env.NewSqliteStore (env.Join env.DataDir "oplog.sqlite") = .failed err →
      err.isErrLocked = true →
      openOplog env
        = .exited [.NewSqliteStore (env.Join env.DataDir "oplog.sqlite"),
            .Fatalf (lockedMessage env.DataDir)]) ∧
    (∀ err, env.NewSqliteStore (env.Join env.DataDir "oplog.sqlite") = .failed err →
      err.isErrLocked = false →
      openOplog env
        = .exited [.NewSqliteStore (env.Join env.DataDir "oplog.sqlite"),
            .Warnf (corruptionGuidance (env.Join env.DataDir "oplog.sqlite")),
            .Fatalf (creatingMessage err)]) ∧
    ((∃ h, StartupEvent.NewOpLog h ∈ (openOplog env).events) ↔
      ∃ h, env.NewSqliteStore (env.Join env.DataDir "oplog.sqlite") = .ok h) ∧
    ((openOplog env).events.filter (fun e => e matches .NewSqliteStore _)).length = 1 := by
  refine ⟨?_, ?_, ?_, ?_⟩
  · intro err h hl
    simp [openOplog, h, hl]
  · intro err h hl
    simp [openOplog, h, hl]
  · cases h : env.NewSqliteStore (env.Join env.DataDir "oplog.sqlite") with
    | failed err =>
      cases hl : err.isErrLocked <;> simp [openOplog, h, hl, StartupResult.events]
    | ok st =>
      cases h2 : env.NewOpLog st <;> simp [openOplog, h, h2, StartupResult.events]
  · cases h : env.NewSqliteStore (env.Join env.DataDir "oplog.sqlite") with
    | failed err =>
      cases hl : err.isErrLocked <;> simp [openOplog, h, hl, StartupResult.events]
    | ok st =>
      cases h2 : env.NewOpLog st <;> simp [openOplog, h, h2, StartupResult.events]

/-! ## The force-kill handler -/

/-- Before every invocation after the first, the counter is one. -/
theorem timesBefore_succ (k : Nat) : timesBefore (k + 1) = 1 := by
  induction k with
  | zero => simp [timesBefore, forceKillHandler, int32Add1]
  | succ k ih => rw [timesBefore, ih]; simp [forceKillHandler]

/-- C10: over the invocations of one handler, the first only increments the counter and warns
that a graceful shutdown is attempted, without terminating; the second and every later one dumps
the stacks and terminates: the `k`-th invocation (`k = 1, 2, ...`) terminates iff `k ≥ 2`. -/
theorem forceKillHandler_escalates (k : Nat) :
    invocation 1 =
      { actions := [.Warn "attempting graceful shutdown, to force termination press Ctrl+C again"],
        times := 1, terminated := false } ∧
    ((invocation (k + 1)).terminated = true ↔ 2 ≤ k + 1) ∧
    ((invocation (k + 2)).actions =
      [.DumpStacks, .Fatal "dumped all running coroutine stack traces, forcing termination"]) := by
  refine ⟨?_, ?_, ?_⟩
  · simp [invocation, timesBefore, forceKillHandler, int32Add1]
  · cases k with
    | zero => simp [invocation, timesBefore, forceKillHandler]
    | succ k => simp [invocation, timesBefore_succ, forceKillHandler]
  · simp [invocation, timesBefore_succ, forceKillHandler]

end Main

namespace Repo

/-! ## Forwarding the backup tool's output -/

/-- C7: given a context with a log writer, `forwardResticLogs` installs a limit writer with
`N = 1048576` and nothing dropped; its flush function closes the pipe writer in every case and
adds exactly one `Output truncated, D bytes dropped` warning, with `D` the writer's drop count at
that time, if that count is positive, and none otherwise. Given a context without a log writer,
it returns the context unchanged and a flush function that changes nothing. -/
theorem forwardResticLogs_flush (ctx : Context) (w : FlushWorld) :
    (ctx.logWriter = none →
      (forwardResticLogs ctx).1 = ctx ∧ (forwardResticLogs ctx).2 w = w) ∧
    (ctx.logWriter ≠ none →
      (forwardResticLogs ctx).1 =
          { ctx with resticLogger := some { N := 1048576, D := 0 } } ∧
        ((forwardResticLogs ctx).2 w).pipeWriterClosed = true ∧
        ((forwardResticLogs ctx).2 w).limitWriter = w.limitWriter ∧
        ((forwardResticLogs ctx).2 w).warnings =
          w.warnings ++
            (if w.limitWriter.D > 0 then
              ["... Output truncated, " ++ toString w.limitWriter.D ++ " bytes dropped\n"]
            else [])) := by
  constructor
  · intro h
    simp [forwardResticLogs, h]
  · intro h
    by_cases hd : w.limitWriter.D > 0 <;>
      simp [forwardResticLogs, h, flushLogs, hd, truncatedMessage]

end Repo

end Backrest

namespace Backrest

namespace Tunnel

/-! ## Interleaved callers: mutual exclusion -/

/-- A step that leaves the send mutex alone and does not make its goroutine a holder keeps the
send-mutex invariant. -/
theorem sendExcl_keep (w w1 : Shared) (g : Nat) (p : Pc)
    (hpc : w1.pc = fun h => if h = g then p else w.pc h) (hmu : w1.sendMu = w.sendMu)
    (hp : holdsSend p = true → holdsSend (w.pc g) = true) (hi : SendExcl w) : SendExcl w1 := by
  obtain ⟨h1, h2⟩ := hi
  have key : ∀ k, holdsSend (w1.pc k) = true → holdsSend (w.pc k) = true := by
    intro k hk
    rw [hpc] at hk
    by_cases hkg : k = g
    · subst hkg; simp at hk; exact hp hk
    · simpa [hkg] using hk
  exact ⟨fun k hk => hmu ▸ h1 k (key k hk), fun k l hk hl => h2 k l (key k hk) (key l hl)⟩

/-- Locking the free send mutex keeps the send-mutex invariant: nobody held it before. -/
theorem sendExcl_acquire (w w1 : Shared) (g : Nat) (p : Pc)
    (hpc : w1.pc = fun h => if h = g then p else w.pc h) (hmu : w1.sendMu = true)
    (hfree : w.sendMu = false) (hi : SendExcl w) : SendExcl w1 := by
  obtain ⟨h1, _⟩ := hi
  have key : ∀ k, holdsSend (w1.pc k) = true → k = g := by
    intro k hk
    by_contra hkg
    rw [hpc] at hk
    simp only [hkg, if_false] at hk
    have := h1 k hk
    rw [hfree] at this
    exact Bool.false_ne_true this
  exact ⟨fun _ _ => hmu, fun k l hk hl => (key k hk).trans (key l hl).symm⟩

/-- When the holder of the send mutex gives it up, nobody holds it any more. -/
theorem sendExcl_release (w w1 : Shared) (g : Nat) (p : Pc)
    (hpc : w1.pc = fun h => if h = g then p else w.pc h)
    (hheld : holdsSend (w.pc g) = true) (hp : holdsSend p = false) (hi : SendExcl w) :
    SendExcl w1 := by
  obtain ⟨_, h2⟩ := hi
  have key : ∀ k, holdsSend (w1.pc k) = true → False := by
    intro k hk
    rw [hpc] at hk
    by_cases hkg : k = g
    · subst hkg; simp [hp] at hk
    · simp only [hkg, if_false] at hk
      exact hkg (h2 k g hk hheld)
  exact ⟨fun k hk => (key k hk).elim, fun k _ hk _ => (key k hk).elim⟩

/-- Every statement of every method keeps the send-mutex invariant. -/
theorem advance_sendExcl (w w1 : Shared) (g : Nat) (h : advance w g = some w1)
    (hi : SendExcl w) : SendExcl w1 := by
  unfold advance at h
  cases hpc : w.pc g <;> simp only [hpc] at h <;> (try split at h) <;>
    simp only [Option.some.injEq, reduceCtorEq] at h <;> subst h <;>
    first
    | (refine sendExcl_keep w _ g _ rfl rfl ?_ hi
       simp [hpc, holdsSend])
    | (refine sendExcl_acquire w _ g _ rfl rfl ?_ hi
       simpa using (by assumption : ¬ w.sendMu = true))
    | (refine sendExcl_release w _ g _ rfl ?_ ?_ hi
       · simp [hpc, holdsSend]
       · simp [holdsSend])

/-- A step that leaves the receive mutex alone and does not make its goroutine a holder keeps
the receive-mutex invariant. -/
theorem receiveExcl_keep (w w1 : Shared) (g : Nat) (p : Pc)
    (hpc : w1.pc = fun h => if h = g then p else w.pc h) (hmu : w1.receiveMu = w.receiveMu)
    (hp : holdsReceive p = true → holdsReceive (w.pc g) = true) (hi : ReceiveExcl w) :
    ReceiveExcl w1 := by
  obtain ⟨h1, h2⟩ := hi
  have key : ∀ k, holdsReceive (w1.pc k) = true → holdsReceive (w.pc k) = true := by
    intro k hk
    rw [hpc] at hk
    by_cases hkg : k = g
    · subst hkg; simp at hk; exact hp hk
    · simpa [hkg] using hk
  exact ⟨fun k hk => hmu ▸ h1 k (key k hk), fun k l hk hl => h2 k l (key k hk) (key l hl)⟩

/-- Locking the free receive mutex keeps the receive-mutex invariant. -/
theorem receiveExcl_acquire (w w1 : Shared) (g : Nat) (p : Pc)
    (hpc : w1.pc = fun h => if h = g then p else w.pc h) (hmu : w1.receiveMu = true)
    (hfree : w.receiveMu = false) (hi : ReceiveExcl w) : ReceiveExcl w1 := by
  obtain ⟨h1, _⟩ := hi
  have key : ∀ k, holdsReceive (w1.pc k) = true → k = g := by
    intro k hk
    by_contra hkg
    rw [hpc] at hk
    simp only [hkg, if_false] at hk
    have := h1 k hk
    rw [hfree] at this
    exact Bool.false_ne_true this
  exact ⟨fun _ _ => hmu, fun k l hk hl => (key k hk).trans (key l hl).symm⟩

/-- When the holder of the receive mutex gives it up, nobody holds it any more. -/
theorem receiveExcl_release (w w1 : Shared) (g : Nat) (p : Pc)
    (hpc : w1.pc = fun h => if h = g then p else w.pc h)
    (hheld : holdsReceive (w.pc g) = true) (hp : holdsReceive p = false) (hi : ReceiveExcl w) :
    ReceiveExcl w1 := by
  obtain ⟨_, h2⟩ := hi
  have key : ∀ k, holdsReceive (w1.pc k) = true → False := by
    intro k hk
    rw [hpc] at hk
    by_cases hkg : k = g
    · subst hkg; simp [hp] at hk
    · simp only [hkg, if_false] at hk
      exact hkg (h2 k g hk hheld)
  exact ⟨fun k hk => (key k hk).elim, fun k _ hk _ => (key k hk).elim⟩

/-- Every statement of every method keeps the receive-mutex invariant. -/
theorem advance_receiveExcl (w w1 : Shared) (g : Nat) (h : advance w g = some w1)
    (hi : ReceiveExcl w) : ReceiveExcl w1 := by
  unfold advance at h
  cases hpc : w.pc g <;> simp only [hpc] at h <;> (try split at h) <;>
    simp only [Option.some.injEq, reduceCtorEq] at h <;> subst h <;>
    first
    | (refine receiveExcl_keep w _ g _ rfl rfl ?_ hi
       simp [hpc, holdsReceive])
    | (refine receiveExcl_acquire w _ g _ rfl rfl ?_ hi
       simpa using (by assumption : ¬ w.receiveMu = true))
    | (refine receiveExcl_release w _ g _ rfl ?_ ?_ hi
       · simp [hpc, holdsReceive]
       · simp [holdsReceive])

/-- The entry point of a method holds no mutex. -/
theorem entry_holds_nothing (side : Side) (m : Method) :
    holdsSend (entry side m) = false ∧ holdsReceive (entry side m) = false := by
  cases side <;> cases m <;> exact ⟨rfl, rfl⟩

/-- Every scheduling decision keeps both mutex invariants. -/
theorem act_excl (side : Side) (w : Shared) (a : Action) (hi : SendExcl w ∧ ReceiveExcl w) :
    SendExcl (act side w a) ∧ ReceiveExcl (act side w a) := by
  cases a with
  | call g m =>
    by_cases hidle : w.pc g = .idle
    · simp only [act, hidle, if_true]
      refine ⟨sendExcl_keep w _ g _ rfl rfl ?_ hi.1, receiveExcl_keep w _ g _ rfl rfl ?_ hi.2⟩
      · simp [(entry_holds_nothing side m).1]
      · simp [(entry_holds_nothing side m).2]
    · simp only [act, hidle, if_false]
      exact hi
  | step g =>
    cases h : advance w g with
    | none =>
      simp only [act, h, Option.getD_none]
      exact hi
    | some w1 =>
      simp only [act, h, Option.getD_some]
      exact ⟨advance_sendExcl w w1 g h hi.1, advance_receiveExcl w w1 g h hi.2⟩

/-- Every schedule keeps both mutex invariants. -/
theorem exec_excl (side : Side) (sched : List Action) (w : Shared)
    (hi : SendExcl w ∧ ReceiveExcl w) :
    SendExcl (exec side w sched) ∧ ReceiveExcl (exec side w sched) := by
  induction sched generalizing w with
  | nil => exact hi
  | cons a rest ih => exact ih (act side w a) (act_excl side w a hi)

/-- A fresh stream with all goroutines idle satisfies both mutex invariants. -/
theorem init_excl : SendExcl Shared.init ∧ ReceiveExcl Shared.init := by
  refine ⟨⟨?_, ?_⟩, ⟨?_, ?_⟩⟩ <;> intros <;> simp_all [Shared.init, holdsSend, holdsReceive]

/-- C9: on a `clientStream` and on a `serverStream` alike, after any schedule of calls and steps
from a fresh stream, two different goroutines are never both inside the wrapped stream's `Send`,
nor both inside its `Receive`; a second `Send` (`Receive`) started meanwhile parks at the send
(receive) mutex. A `Send` started with the send mutex free runs into the wrapped stream's `Send`
and returns whatever the state of the receive mutex, locking and unlocking the send mutex only;
and symmetrically for `Receive`. -/
theorem direction_locks_independent (side : Side) (sched : List Action) (g h : Nat)
    (hgh : g ≠ h) :
    ¬ ((exec side Shared.init sched).pc g = .sendCall ∧
        (exec side Shared.init sched).pc h = .sendCall) ∧
    ¬ ((exec side Shared.init sched).pc g = .recvCall ∧
        (exec side Shared.init sched).pc h = .recvCall) ∧
    ((exec side Shared.init sched).pc g = .sendCall →
      (exec side Shared.init sched).pc h = .idle →
      (exec side (exec side Shared.init sched)
        [.call h .Send, .step h]).pc h = .sendLock) ∧
    ((exec side Shared.init sched).pc g = .recvCall →
      (exec side Shared.init sched).pc h = .idle →
      (exec side (exec side Shared.init sched)
        [.call h .Receive, .step h]).pc h = .recvLock) ∧
    (∀ w : Shared, w.pc g = .idle → w.sendMu = false → w.closed = false →
      (exec side w [.call g .Send, .step g, .step g]).pc g = .sendCall ∧
      (exec side w [.call g .Send, .step g, .step g]).sendMu = true ∧
      (exec side w [.call g .Send, .step g, .step g]).receiveMu = w.receiveMu ∧
      (exec side w
        [.call g .Send, .step g, .step g, .step g, .step g]).pc g = .idle ∧
      (exec side w
        [.call g .Send, .step g, .step g, .step g, .step g]).sendMu = false ∧
      (exec side w
        [.call g .Send, .step g, .step g, .step g, .step g]).receiveMu
          = w.receiveMu) ∧
    (∀ w : Shared, w.pc g = .idle → w.receiveMu = false → w.closed = false →
      (exec side w [.call g .Receive, .step g, .step g]).pc g = .recvCall ∧
      (exec side w [.call g .Receive, .step g, .step g]).receiveMu = true ∧
      (exec side w [.call g .Receive, .step g, .step g]).sendMu = w.sendMu ∧
      (exec side w
        [.call g .Receive, .step g, .step g, .step g, .step g]).pc g = .idle ∧
      (exec side w
        [.call g .Receive, .step g, .step g, .step g, .step g]).receiveMu
          = false ∧
      (exec side w
        [.call g .Receive, .step g, .step g, .step g, .step g]).sendMu
          = w.sendMu) := by
  obtain ⟨⟨hs1, hs2⟩, ⟨hr1, hr2⟩⟩ := exec_excl side sched Shared.init init_excl
  generalize exec side Shared.init sched = w0 at hs1 hs2 hr1 hr2 ⊢
  refine ⟨?_, ?_, ?_, ?_, ?_, ?_⟩
  · rintro ⟨h1, h2⟩
    exact hgh (hs2 g h (by rw [h1]; rfl) (by rw [h2]; rfl))
  · rintro ⟨h1, h2⟩
    exact hgh (hr2 g h (by rw [h1]; rfl) (by rw [h2]; rfl))
  · intro h1 h2
    have hmu := hs1 g (by rw [h1]; rfl)
    simp [exec, act, advance, Shared.goto, entry, h2, hmu]
  · intro h1 h2
    have hmu := hr1 g (by rw [h1]; rfl)
    simp [exec, act, advance, Shared.goto, entry, h2, hmu]
  · intro w h1 h2 h3
    simp [exec, act, advance, Shared.goto, entry, h1, h2, h3]
  · intro w h1 h2 h3
    simp [exec, act, advance, Shared.goto, entry, h1, h2, h3]

/-- C9, on a `clientStream` with goroutine 0 inside `Send` and goroutine 1 inside `Receive` at
the same time. -/
theorem direction_locks_independent_witness :
    (0 : Nat) ≠ 1 ∧
    (exec .client Shared.init bothInFlight).pc 0 = .sendCall ∧
    (exec .client Shared.init bothInFlight).pc 1 = .recvCall ∧
    ¬ ((exec .client Shared.init bothInFlight).pc 0 = .sendCall ∧
        (exec .client Shared.init bothInFlight).pc 1 = .sendCall) ∧
    ¬ ((exec .client Shared.init bothInFlight).pc 0 = .recvCall ∧
        (exec .client Shared.init bothInFlight).pc 1 = .recvCall) ∧
    ((exec .client Shared.init bothInFlight).pc 0 = .sendCall →
      (exec .client Shared.init bothInFlight).pc 1 = .idle →
      (exec .client (exec .client Shared.init bothInFlight)
        [.call 1 .Send, .step 1]).pc 1 = .sendLock) ∧
    ((exec .client Shared.init bothInFlight).pc 0 = .recvCall →
      (exec .client Shared.init bothInFlight).pc 1 = .idle →
      (exec .client (exec .client Shared.init bothInFlight)
        [.call 1 .Receive, .step 1]).pc 1 = .recvLock) ∧
    (∀ w : Shared, w.pc 0 = .idle → w.sendMu = false → w.closed = false →
      (exec .client w [.call 0 .Send, .step 0, .step 0]).pc 0 = .sendCall ∧
      (exec .client w [.call 0 .Send, .step 0, .step 0]).sendMu = true ∧
      (exec .client w [.call 0 .Send, .step 0, .step 0]).receiveMu = w.receiveMu ∧
      (exec .client w
        [.call 0 .Send, .step 0, .step 0, .step 0, .step 0]).pc 0 = .idle ∧
      (exec .client w
        [.call 0 .Send, .step 0, .step 0, .step 0, .step 0]).sendMu = false ∧
      (exec .client w
        [.call 0 .Send, .step 0, .step 0, .step 0, .step 0]).receiveMu
          = w.receiveMu) ∧
    (∀ w : Shared, w.pc 0 = .idle → w.receiveMu = false → w.closed = false →
      (exec .client w [.call 0 .Receive, .step 0, .step 0]).pc 0 = .recvCall ∧
      (exec .client w [.call 0 .Receive, .step 0, .step 0]).receiveMu = true ∧
      (exec .client w [.call 0 .Receive, .step 0, .step 0]).sendMu = w.sendMu ∧
      (exec .client w
        [.call 0 .Receive, .step 0, .step 0, .step 0, .step 0]).pc 0 = .idle ∧
      (exec .client w
        [.call 0 .Receive, .step 0, .step 0, .step 0, .step 0]).receiveMu
          = false ∧
      (exec .client w
        [.call 0 .Receive, .step 0, .step 0, .step 0, .step 0]).sendMu
          = w.sendMu) :=
  ⟨by decide, rfl, rfl, direction_locks_independent .client bothInFlight 0 1 (by decide)⟩

end Tunnel

end Backrest

namespace Backrest

namespace Tunnel

/-! ## Interleaved callers: after a close -/

/-- No statement of any method resets the `closed` flag. -/
theorem advance_closed (w w1 : Shared) (g : Nat) (h : advance w g = some w1)
    (hc : w.closed = true) : w1.closed = true := by
  unfold advance at h
  cases hpc : w.pc g <;> simp only [hpc] at h <;> (try split at h) <;>
    simp only [Option.some.injEq, reduceCtorEq] at h <;> subst h <;>
    first
    | exact hc
    | rfl

/-- Once the `closed` flag is set it stays set, whatever the goroutines do. -/
theorem exec_closed (side : Side) (sched : List Action) (w : Shared) (hc : w.closed = true) :
    (exec side w sched).closed = true := by
  induction sched generalizing w with
  | nil => exact hc
  | cons a rest ih =>
    refine ih (act side w a) ?_
    cases a with
    | call g m =>
      by_cases hidle : w.pc g = .idle <;> simp [act, hidle, Shared.goto, hc]
    | step g =>
      cases h : advance w g with
      | none => simpa [act, h] using hc
      | some w1 => simpa [act, h] using advance_closed w w1 g h hc

/-- When both mutexes are locked and nobody holds them, no statement can change that. -/
theorem advance_stuck (w w1 : Shared) (g : Nat) (h : advance w g = some w1) (hi : Stuck w) :
    Stuck w1 := by
  obtain ⟨hs, hr, hn⟩ := hi
  have hg := hn g
  unfold advance at h
  cases hpc : w.pc g <;> simp only [hpc] at h hg <;>
    simp [hs, hr, holdsSend, holdsReceive] at h hg
  all_goals
    subst h
    refine ⟨by first | exact hs | rfl, by first | exact hr | rfl, fun k => ?_⟩
    by_cases hk : k = g
    · subst hk; simp [Shared.goto, holdsSend, holdsReceive]
    · simpa [Shared.goto, hk] using hn k

/-- When both mutexes are locked and nobody holds them, no schedule can change that. -/
theorem exec_stuck (side : Side) (sched : List Action) (w : Shared) (hi : Stuck w) :
    Stuck (exec side w sched) := by
  induction sched generalizing w with
  | nil => exact hi
  | cons a rest ih =>
    refine ih (act side w a) ?_
    cases a with
    | call g m =>
      by_cases hidle : w.pc g = .idle
      · simp only [act, hidle, if_true]
        refine ⟨hi.1, hi.2.1, fun k => ?_⟩
        by_cases hk : k = g
        · subst hk
          simpa [Shared.goto] using entry_holds_nothing side m
        · simpa [Shared.goto, hk] using hi.2.2 k
      · simpa [act, hidle] using hi
    | step g =>
      cases h : advance w g with
      | none => simpa [act, h] using hi
      | some w1 => simpa [act, h] using advance_stuck w w1 g h hi

/-- After a `serverStream.Close` has run its last statement, both mutexes stay locked for ever:
whatever is scheduled afterwards, no goroutine gets past the `Lock` of `Send`, `Receive` or
`Close` again, so none reaches the check of the `closed` flag or the wrapped stream. -/
theorem serverStream_Close_deadlocks (before after : List Action) (g h : Nat)
    (hg : (exec .server Shared.init before).pc g = .srvStore) :
    (exec .server (act .server (exec .server Shared.init before) (.step g)) after).sendMu
        = true ∧
    (exec .server (act .server (exec .server Shared.init before) (.step g)) after).receiveMu
        = true ∧
    holdsSend
        ((exec .server (act .server (exec .server Shared.init before) (.step g)) after).pc h)
      = false ∧
    holdsReceive
        ((exec .server (act .server (exec .server Shared.init before) (.step g)) after).pc h)
      = false := by
  obtain ⟨⟨hs1, hs2⟩, ⟨hr1, hr2⟩⟩ := exec_excl .server before Shared.init init_excl
  generalize exec .server Shared.init before = w0 at hg hs1 hs2 hr1 hr2 ⊢
  have hstuck : Stuck (act .server w0 (.step g)) := by
    have hsg : holdsSend (w0.pc g) = true := by rw [hg]; rfl
    have hrg : holdsReceive (w0.pc g) = true := by rw [hg]; rfl
    simp only [act, advance, hg, Option.getD_some]
    refine ⟨hs1 g hsg, hr1 g hrg, fun k => ?_⟩
    by_cases hk : k = g
    · subst hk
      simp [Shared.goto, holdsSend, holdsReceive]
    · have h1 : holdsSend (w0.pc k) = false := by
        cases hq : holdsSend (w0.pc k)
        · rfl
        · exact absurd (hs2 k g hq hsg) hk
      have h2 : holdsReceive (w0.pc k) = false := by
        cases hq : holdsReceive (w0.pc k)
        · rfl
        · exact absurd (hr2 k g hq hrg) hk
      simpa [Shared.goto, hk] using And.intro h1 h2
  obtain ⟨h1, h2, h3⟩ := exec_stuck .server after _ hstuck
  exact ⟨h1, h2, (h3 h).1, (h3 h).2⟩

/-- The schedule on which goroutine 0 runs `serverStream.Close` up to its last statement. -/
theorem serverStream_Close_deadlocks_witness :
    (exec .server Shared.init [.call 0 .Close, .step 0, .step 0]).pc 0 = .srvStore ∧
    (exec .server
        (act .server (exec .server Shared.init [.call 0 .Close, .step 0, .step 0]) (.step 0))
        [.call 1 .Send, .step 1, .step 1]).sendMu = true ∧
    (exec .server
        (act .server (exec .server Shared.init [.call 0 .Close, .step 0, .step 0]) (.step 0))
        [.call 1 .Send, .step 1, .step 1]).receiveMu = true ∧
    holdsSend
        ((exec .server
          (act .server (exec .server Shared.init [.call 0 .Close, .step 0, .step 0]) (.step 0))
          [.call 1 .Send, .step 1, .step 1]).pc 1) = false ∧
    holdsReceive
        ((exec .server
          (act .server (exec .server Shared.init [.call 0 .Close, .step 0, .step 0]) (.step 0))
          [.call 1 .Send, .step 1, .step 1]).pc 1) = false :=
  serverStream_Close_deadlocks [.call 0 .Close, .step 0, .step 0]
    [.call 1 .Send, .step 1, .step 1] 0 1 rfl |> fun h => ⟨rfl, h⟩

end Tunnel

end Backrest
